import Mathlib

/-!
Shallow embedding of `route/v2/appstore.go` from CasaOS-AppManagement:
the app-store registry handlers, the catalog filter pipeline, the
installed-app cross-referencer, the category aggregator and the
single-compose-app representation selector, together with theorems about
their behaviour.

External collaborators (the service layer, the generated `codegen` types'
constant values, YAML marshalling) are passed in as explicit inputs or
modelled from the spec where their code is not part of the source tree.
-/

deriving instance DecidableEq for Except

namespace AppStore

/-- `strings.ToLower`, embedded structurally over the string's characters
(ASCII case folding, which covers every string the handlers compare). -/
def strToLower (s : String) : String := String.mk (s.data.map Char.toLower)

/-- Store-info projection of a compose app (`codegen.ComposeAppStoreInfo`).
Only the fields the handlers inspect are modelled; `empty` is the Go
zero value `codegen.ComposeAppStoreInfo{}`. -/
structure ComposeAppStoreInfo where
  title : Option String := none
  category : String := ""
  authorType : Option String := none
  storeAppID : Option String := none
deriving DecidableEq, Repr

def ComposeAppStoreInfo.empty : ComposeAppStoreInfo := {}

/-- A compose-app descriptor (`service.ComposeApp`) as the handlers see it:
its name, its author type (`AuthorType()`, which never fails), and the two
store-info projections `StoreInfo(true)` / `StoreInfo(false)`.  The latter
may succeed with a nil pointer, which the installed path checks for, so it
carries an `Option`. -/
structure ComposeApp where
  name : String := ""
  authorType : String := ""
  storeInfoTrue : Except String ComposeAppStoreInfo := .error ""
  storeInfoFalse : Except String (Option ComposeAppStoreInfo) := .error ""
deriving DecidableEq, Repr

/-- A catalog: the mapping from store-app identifier to compose app,
embedded as an association list. -/
abbrev Catalog := List (String × ComposeApp)

/-- One registered app-store source (`codegen.AppStoreMetadata`). -/
structure AppStoreMetadata where
  url : Option String := none
deriving DecidableEq, Repr

/- ## Registry handlers -/

/-- Response of the register endpoint, by HTTP class. -/
inductive RegisterResponse where
  | badRequest (message : String)
  | internalError (message : String)
  | okMsg (message : String)
deriving DecidableEq, Repr

/-- Outcome of the external `AppStoreManagement().RegisterAppStore` call:
`none` is success; `notAppStore` is `service.ErrNotAppStore`. -/
inductive RegisterError where
  | notAppStore
  | internal (message : String)
deriving DecidableEq, Repr

/-- Modelled from the spec: `service.ErrNotAppStore`'s message text lives in
the service package, outside the source under verification; the spec only
fixes its error kind, so the text is a stand-in. -/
def errNotAppStoreMessage : String := "not an app store"

def RegisterError.message : RegisterError → String
  | .notAppStore => errNotAppStoreMessage
  | .internal m => m

/-- Case-insensitive existence check of `RegisterAppStore`
(`lo.ContainsBy` over the current list). -/
def urlExists (appStoreList : List AppStoreMetadata) (u : String) : Bool :=
  appStoreList.any (fun appstore =>
    match appstore.url with
    | some su => strToLower su == strToLower u
    | none => false)

def registerInitiatedMessage (logFilepath : String) : String :=
  s!"trying to register app store asynchronously - see {logFilepath} for any errors."

/-- `RegisterAppStore` handler.  Returns the response together with whether
the external validate-and-persist collaborator was invoked.
`registerResult` is the synchronous outcome of that collaborator call
(consulted only when it is invoked). -/
def RegisterAppStore (appStoreList : List AppStoreMetadata) (paramsUrl : Option String)
    (registerResult : Option RegisterError) (logFilepath : String) :
    RegisterResponse × Bool :=
  match paramsUrl with
  | none => (.badRequest "appstore url is required", false)
  | some u =>
    if u = "" then (.badRequest "appstore url is required", false)
    else if urlExists appStoreList u then
      (.okMsg "appstore is already registered", false)
    else
      match registerResult with
      | some .notAppStore => (.badRequest errNotAppStoreMessage, true)
      | some (.internal m) => (.internalError m, true)
      | none => (.okMsg (registerInitiatedMessage logFilepath), true)

/-- Modelled from the spec: the external validate-and-persist collaborator
(`service.AppStoreManagement().RegisterAppStore`) is outside the source
tree; per the spec it validates the URL and, on success, appends the new
source to the registry. -/
def applyRegister (appStoreList : List AppStoreMetadata) (u : String)
    (registerResult : Option RegisterError) : List AppStoreMetadata :=
  match registerResult with
  | none => appStoreList ++ [{ url := some u }]
  | some _ => appStoreList

/-- One register call as a state transition: handler response, whether the
collaborator ran, and the registry afterwards (the collaborator's append
applied only when it was invoked and succeeded). -/
def registerStep (appStoreList : List AppStoreMetadata) (paramsUrl : Option String)
    (registerResult : Option RegisterError) (logFilepath : String) :
    RegisterResponse × Bool × List AppStoreMetadata :=
  let (resp, invoked) := RegisterAppStore appStoreList paramsUrl registerResult logFilepath
  match paramsUrl with
  | none => (resp, invoked, appStoreList)
  | some u =>
    if invoked then (resp, invoked, applyRegister appStoreList u registerResult)
    else (resp, invoked, appStoreList)

/-- Response of the unregister endpoint, by HTTP class. -/
inductive UnregisterResponse where
  | notFound (message : String)
  | badRequest (message : String)
  | internalError (message : String)
  | ok (message : String)
deriving DecidableEq, Repr

def unregisterNotFoundMessage (id : Int) : String :=
  s!"app store id {id} is not found"

def lastAppStoreMessage : String :=
  "cannot unregister the last app store - need at least one app store"

/-- Modelled from the spec: the external
`service.AppStoreManagement().UnregisterAppStore` collaborator is outside
the source tree; per the spec it removes the source at the given index. -/
def applyUnregister (appStoreList : List AppStoreMetadata) (id : Nat) :
    List AppStoreMetadata :=
  appStoreList.eraseIdx id

/-- `UnregisterAppStore` handler as a state transition: the bounds check
comes first, then the size-one check, then the collaborator call
(`unregisterResult` being its outcome). Returns the response and the
registry afterwards. -/
def UnregisterAppStore (appStoreList : List AppStoreMetadata) (id : Int)
    (unregisterResult : Except String Unit) :
    UnregisterResponse × List AppStoreMetadata :=
  if id < 0 ∨ (appStoreList.length : Int) ≤ id then
    (.notFound (unregisterNotFoundMessage id), appStoreList)
  else if appStoreList.length = 1 then
    (.badRequest lastAppStoreMessage, appStoreList)
  else
    match unregisterResult with
    | .error e => (.internalError e, appStoreList)
    | .ok _ => (.ok "app store is unregistered.", applyUnregister appStoreList id.toNat)

/- ## Catalog filters -/

/-- Modelled from the spec: the generated author-type constants
(`codegen.Official`, `codegen.ByCasaos`, `codegen.Community`) live in the
generated API package outside the source tree; the spec's case-insensitive
matching (requests are lowercased before comparison) fixes their canonical
values as lower case. -/
def Official : String := "official"

/-- Modelled from the spec: see `Official`. -/
def ByCasaos : String := "by_casaos"

/-- Modelled from the spec: see `Official`. -/
def Community : String := "community"

/-- `FilterCatalogByCategory`: identity on the empty category, otherwise
keeps entries whose store-info projection succeeds and whose category
matches case-insensitively (a failing projection counts as non-matching). -/
def FilterCatalogByCategory (catalog : Catalog) (category : String) : Catalog :=
  if category = "" then catalog
  else
    catalog.filter (fun e =>
      match e.2.storeInfoTrue with
      | .error _ => false
      | .ok storeInfo => strToLower storeInfo.category == strToLower category)

/-- `FilterCatalogByAuthorType`: unknown author types yield the empty
catalog; known ones keep entries whose `AuthorType()` equals the argument. -/
def FilterCatalogByAuthorType (catalog : Catalog) (authorType : String) : Catalog :=
  if ¬ (authorType = Official ∨ authorType = ByCasaos ∨ authorType = Community) then
    []
  else
    catalog.filter (fun e => e.2.authorType == authorType)

/-- `FilterCatalogByAppStoreID`: keeps entries whose key appears in the
given identifier list. -/
def FilterCatalogByAppStoreID (catalog : Catalog) (appStoreIDs : List String) : Catalog :=
  catalog.filter (fun e => appStoreIDs.contains e.1)

/- ## Catalog listing handler -/

/-- Query parameters of `ComposeAppStoreInfoList`
(`codegen.ComposeAppStoreInfoListParams`). -/
structure ComposeAppStoreInfoListParams where
  category : Option String := none
  authorType : Option String := none
  recommend : Option Bool := none
deriving DecidableEq, Repr

/-- The category-filter step of the handler: applied only when the
parameter is present. -/
def categoryStep (catalog : Catalog) (params : ComposeAppStoreInfoListParams) : Catalog :=
  match params.category with
  | none => catalog
  | some category => FilterCatalogByCategory catalog category

/-- The author-type-filter step of the handler: applied only when the
parameter is present, after lowercasing the requested value. -/
def authorTypeStep (catalog : Catalog) (params : ComposeAppStoreInfoListParams) : Catalog :=
  match params.authorType with
  | none => catalog
  | some authorType => FilterCatalogByAuthorType catalog (strToLower authorType)

/-- The three filter steps of `ComposeAppStoreInfoList` in their fixed
order.  `recommendResult` is the outcome of the external `Recommend()`
fetch, consulted only when the recommend flag is present and true; its
failure aborts the pipeline. -/
def filterPipeline (catalog : Catalog) (params : ComposeAppStoreInfoListParams)
    (recommendResult : Except String (List String)) : Except String Catalog :=
  let afterAuthor := authorTypeStep (categoryStep catalog params) params
  if params.recommend = some true then
    match recommendResult with
    | .error e => .error e
    | .ok recommendedList => .ok (FilterCatalogByAppStoreID afterAuthor recommendedList)
  else
    .ok afterAuthor

/-- The `lo.MapValues` projection of the handler: every entry is kept, a
failing store-info projection becoming the zero value
`codegen.ComposeAppStoreInfo{}`. -/
def storeInfoListing (catalog : Catalog) : List (String × ComposeAppStoreInfo) :=
  catalog.map (fun e =>
    (e.1,
      match e.2.storeInfoTrue with
      | .error _ => ComposeAppStoreInfo.empty
      | .ok storeInfo => storeInfo))

/-- The installed cross-referencer (`lo.FilterMap` over the installed
compose apps): apps whose `StoreInfo(false)` fails, is nil, or lacks a
store-app identifier are skipped. -/
def installedIDs (installedComposeApps : List ComposeApp) : List String :=
  installedComposeApps.filterMap (fun composeApp =>
    match composeApp.storeInfoFalse with
    | .error _ => none
    | .ok none => none
    | .ok (some storeInfo) => storeInfo.storeAppID)

/-- Response of the catalog listing endpoint.  `okNoInstalled` is the
HTTP-200 response carrying the fetch-error message and the list but no
installed set; `okFull` carries both. -/
inductive ListResponse where
  | internalError (message : String)
  | okNoInstalled (message : String) (list : List (String × ComposeAppStoreInfo))
  | okFull (list : List (String × ComposeAppStoreInfo)) (installed : List String)
deriving DecidableEq, Repr

/-- HTTP status code of a `ListResponse`. -/
def ListResponse.statusCode : ListResponse → Nat
  | .internalError _ => 500
  | .okNoInstalled _ _ => 200
  | .okFull _ _ => 200

/-- The installed-identifier set carried by a `ListResponse`, when present. -/
def ListResponse.installed : ListResponse → Option (List String)
  | .internalError _ => none
  | .okNoInstalled _ _ => none
  | .okFull _ installed => some installed

/-- `ComposeAppStoreInfoList` handler over its external inputs: the
catalog fetch, the recommend fetch and the installed-inventory fetch. -/
def ComposeAppStoreInfoList (catalogResult : Except String Catalog)
    (params : ComposeAppStoreInfoListParams)
    (recommendResult : Except String (List String))
    (installedResult : Except String (List ComposeApp)) : ListResponse :=
  match catalogResult with
  | .error e => .internalError e
  | .ok catalog =>
    match filterPipeline catalog params recommendResult with
    | .error e => .internalError e
    | .ok filtered =>
      let list := storeInfoListing filtered
      match installedResult with
      | .error e => .okNoInstalled e list
      | .ok installedComposeApps => .okFull list (installedIDs installedComposeApps)

/- ## Category aggregator -/

/-- One category entry (`codegen.CategoryInfo`); `count` and `id` are
pointer fields in the generated type. -/
structure CategoryInfo where
  name : String := ""
  font : Option String := none
  description : Option String := none
  count : Option Int := none
  id : Option Nat := none
deriving DecidableEq, Repr

/-- Lexicographic comparison of character lists by code point
(`strings.Compare(a, b) <= 0`: UTF-8 byte order coincides with code-point
order). -/
def charListLe : List Char → List Char → Bool
  | [], _ => true
  | _ :: _, [] => false
  | a :: as, b :: bs =>
    if a.toNat < b.toNat then true
    else if b.toNat < a.toNat then false
    else charListLe as bs

/-- Byte-wise string order, `strings.Compare(a, b) <= 0`. -/
def strLeb (a b : String) : Bool := charListLe a.data b.data

/-- Insertion of one category into a name-sorted list (byte-wise string
order). -/
def insertCategory (c : CategoryInfo) : List CategoryInfo → List CategoryInfo
  | [] => [c]
  | d :: rest =>
    if strLeb c.name d.name then c :: d :: rest else d :: insertCategory c rest

/-- The `sort.Slice` of `CategoryList`: sort by name ascending. -/
def sortCategories : List CategoryInfo → List CategoryInfo
  | [] => []
  | c :: rest => insertCategory c (sortCategories rest)

/-- The total-count accumulation of `CategoryList`: sum of counts, an
absent count contributing zero. -/
def totalCountOf : List CategoryInfo → Int
  | [] => 0
  | c :: rest => (match c.count with | none => 0 | some n => n) + totalCountOf rest

/-- The synthetic "All" category prepended by `CategoryList`. -/
def allCategory (totalCount : Int) : CategoryInfo :=
  { name := "All", font := some "apps", description := some "All apps",
    count := some totalCount }

/-- The final `lo.Map` of `CategoryList`: assign each element's `id` its
position. -/
def assignIDs (start : Nat) : List CategoryInfo → List CategoryInfo
  | [] => []
  | c :: rest => { c with id := some start } :: assignIDs (start + 1) rest

/-- `CategoryList` handler body over the fetched category values
(`lo.Values` of the category map; a map's value order is arbitrary, and
the result does not depend on it). -/
def CategoryList (categoryValues : List CategoryInfo) : List CategoryInfo :=
  let categoryList := sortCategories categoryValues
  let totalCount := totalCountOf categoryList
  assignIDs 0 (allCategory totalCount :: categoryList)

/- ## Single compose-app representation selector -/

/-- Modelled from the spec: `common.MIMEApplicationYAML`, the
structured-document content type constant, lives outside the source tree. -/
def MIMEApplicationYAML : String := "application/yaml"

def composeAppDebugMessage : String :=
  s!"!! JSON format is for debugging purpose only - use `Accept: {MIMEApplicationYAML}` HTTP header to get YAML instead !!"

/-- Response of the single compose-app endpoint: a bare YAML string, or a
JSON envelope with warning message, store info and compose data. -/
inductive ComposeAppResponse where
  | internalError (message : String)
  | notFound (message : String)
  | yamlBody (body : String)
  | jsonEnvelope (message : String) (storeInfo : Option ComposeAppStoreInfo)
      (compose : ComposeApp)
deriving DecidableEq, Repr

/-- The `ComposeApp` handler (single compose-app retrieval):
`lookupResult` is the outcome of the app-store lookup (which may succeed
with no app), `accept` the request's Accept header, `yamlMarshal` the
serializer. -/
def ComposeAppRoute (lookupResult : Except String (Option ComposeApp))
    (accept : String) (yamlMarshal : ComposeApp → Except String String) :
    ComposeAppResponse :=
  match lookupResult with
  | .error e => .internalError e
  | .ok none => .notFound "app not found"
  | .ok (some composeApp) =>
    if accept = MIMEApplicationYAML then
      match yamlMarshal composeApp with
      | .error e => .internalError e
      | .ok body => .yamlBody body
    else
      match composeApp.storeInfoFalse with
      | .error e => .internalError e
      | .ok storeInfo => .jsonEnvelope composeAppDebugMessage storeInfo composeApp

/-- Name order on categories, the comparator of the sort. -/
def nameLe (a b : CategoryInfo) : Prop := strLeb a.name b.name = true

/-- Forget the display ordinal, for comparing categories across the
ordinal assignment. -/
def stripID (c : CategoryInfo) : CategoryInfo := { c with id := none }

/-- A catalog entry whose store-info projection fails. -/
def failingApp : ComposeApp :=
  { name := "bad", authorType := "official",
    storeInfoTrue := .error "yaml: unmarshal error",
    storeInfoFalse := .error "yaml: unmarshal error" }

/- ## Theorems -/

/-- C1 (counterexample): on a registry with exactly one source, `Unregister`
at the out-of-range index 5 returns `NotFound`, not `LastSourceRejected`,
and the claim that the size-one check applies regardless of index validity
is false: the bounds check runs first. -/
theorem C1_counterexample :
    UnregisterAppStore [{ url := some "https://appstore.example.com" }] 5 (.ok ()) =
      (.notFound (unregisterNotFoundMessage 5),
        [{ url := some "https://appstore.example.com" }]) ∧
    (UnregisterAppStore [{ url := some "https://appstore.example.com" }] 5 (.ok ())).1 ≠
      .badRequest lastAppStoreMessage := by
  constructor
  · rfl
  · intro h
    simp [UnregisterAppStore] at h

/-- C1 (amended): for a registry with exactly one source, `Unregister`
leaves the registry unchanged for every index; the in-range index 0 fails
with `LastSourceRejected`, while any other index fails with `NotFound`
(the bounds check precedes the size-one check). -/
theorem C1_unregister_last_source (appStoreList : List AppStoreMetadata) (id : Int)
    (r : Except String Unit) (h : appStoreList.length = 1) :
    (UnregisterAppStore appStoreList id r).2 = appStoreList ∧
    (id = 0 →
      (UnregisterAppStore appStoreList id r).1 = .badRequest lastAppStoreMessage) ∧
    (id ≠ 0 →
      (UnregisterAppStore appStoreList id r).1 = .notFound (unregisterNotFoundMessage id)) := by
  unfold UnregisterAppStore
  rcases eq_or_ne id 0 with h0 | h0
  · subst h0
    rw [if_neg (by rw [h]; omega), if_pos h]
    simp
  · rw [if_pos (by rw [h]; omega)]
    simp [h0]

/-- C1 (witness for the amended theorem). -/
theorem C1_unregister_last_source_witness :
    (UnregisterAppStore [{ url := some "u" }] 0 (.ok ())).2 = [{ url := some "u" }] ∧
    (UnregisterAppStore [{ url := some "u" }] 0 (.ok ())).1 =
      .badRequest lastAppStoreMessage := by
  have h := C1_unregister_last_source [{ url := some "u" }] 0 (.ok ()) (by rfl)
  exact ⟨h.1, h.2.1 rfl⟩

/-- The existence check only depends on the lowercased URL. -/
lemma urlExists_congr (l : List AppStoreMetadata) (u v : String)
    (h : strToLower u = strToLower v) : urlExists l u = urlExists l v := by
  induction l with
  | nil => rfl
  | cons a rest ih =>
    simp only [urlExists, List.any_cons] at *
    rw [ih, h]

/-- Appending a source with URL `u` makes every URL with the same
lowercasing present. -/
lemma urlExists_append_self (l : List AppStoreMetadata) (u v : String)
    (h : strToLower u = strToLower v) :
    urlExists (l ++ [{ url := some u }]) v = true := by
  simp only [urlExists, List.any_append, List.any_cons, List.any_nil]
  simp [h]

/-- C7: registering a URL already present (case-insensitively) is a no-op
success that never reaches the validate-and-persist collaborator; hence a
second registration of the same URL (any casing) after a successful first
call returns success and leaves the registry unchanged. -/
theorem C7_register_idempotent (l : List AppStoreMetadata) (u u₂ : String)
    (r r₂ : Option RegisterError) (lp lp₂ : String)
    (hne : u ≠ "") (hne₂ : u₂ ≠ "") (hcase : strToLower u = strToLower u₂) :
    (urlExists l u = true →
      registerStep l (some u) r lp = (.okMsg "appstore is already registered", false, l)) ∧
    (∀ m, (registerStep l (some u) r lp).1 = .okMsg m →
      registerStep (registerStep l (some u) r lp).2.2 (some u₂) r₂ lp₂ =
        (.okMsg "appstore is already registered", false,
          (registerStep l (some u) r lp).2.2)) := by
  constructor
  · intro hdup
    simp [registerStep, RegisterAppStore, hne, hdup]
  · intro m hok
    rcases hx : urlExists l u with _ | _
    · -- the URL was absent: a success response means the collaborator
      -- succeeded and appended the source
      rcases r with _ | e
      · have hstate : (registerStep l (some u) none lp).2.2 = l ++ [{ url := some u }] := by
          simp [registerStep, RegisterAppStore, applyRegister, hne, hx]
        rw [hstate]
        have hdup₂ : urlExists (l ++ [{ url := some u }]) u₂ = true :=
          urlExists_append_self l u u₂ hcase
        simp [registerStep, RegisterAppStore, hne₂, hdup₂]
      · rcases e with _ | msg <;>
          simp [registerStep, RegisterAppStore, hne, hx] at hok
    · -- the URL was present: the registry is untouched and still holds it
      have hstate : (registerStep l (some u) r lp).2.2 = l := by
        simp [registerStep, RegisterAppStore, hne, hx]
      rw [hstate]
      have hdup₂ : urlExists l u₂ = true := by
        rw [← urlExists_congr l u u₂ hcase]; exact hx
      simp [registerStep, RegisterAppStore, hne₂, hdup₂]

/-- C7 (witness). -/
theorem C7_register_idempotent_witness :
    registerStep [{ url := some "http://Example.com/store" }]
        (some "HTTP://EXAMPLE.COM/STORE") none "log" =
      (.okMsg "appstore is already registered", false,
        [{ url := some "http://Example.com/store" }]) := by
  exact (C7_register_idempotent [{ url := some "http://Example.com/store" }]
    "HTTP://EXAMPLE.COM/STORE" "http://example.com/store" none none "log" "log"
    (by decide) (by decide) (by decide)).1 (by decide)

/-- C3: the category filter and the author-type filter commute: filtering
by category then author type yields the same catalog as filtering by
author type then category. -/
theorem C3_filters_commute (catalog : Catalog) (category authorType : String) :
    FilterCatalogByAuthorType (FilterCatalogByCategory catalog category) authorType =
      FilterCatalogByCategory (FilterCatalogByAuthorType catalog authorType) category := by
  by_cases hc : category = ""
  · simp [FilterCatalogByCategory, hc]
  · by_cases ha : authorType = Official ∨ authorType = ByCasaos ∨ authorType = Community
    · rw [FilterCatalogByCategory, if_neg hc, FilterCatalogByCategory, if_neg hc,
        FilterCatalogByAuthorType, if_neg (not_not_intro ha),
        FilterCatalogByAuthorType, if_neg (not_not_intro ha),
        List.filter_filter, List.filter_filter]
      apply List.filter_congr
      intro e _
      exact Bool.and_comm _ _
    · rw [FilterCatalogByAuthorType, if_pos ha, FilterCatalogByAuthorType, if_pos ha,
        FilterCatalogByCategory, if_neg hc, List.filter_nil]

/-- C4: when the lowercased requested author type is none of the three
known values, the author-type filter yields the empty catalog for every
catalog, and the listing query still succeeds (HTTP 200) with an empty
list rather than failing. -/
theorem C4_unknown_author_type (catalog c0 : Catalog) (authorType : String)
    (apps : List ComposeApp)
    (h : ¬(strToLower authorType = Official ∨ strToLower authorType = ByCasaos ∨
      strToLower authorType = Community)) :
    FilterCatalogByAuthorType catalog (strToLower authorType) = [] ∧
    ComposeAppStoreInfoList (.ok c0) { authorType := some authorType } (.ok [])
        (.ok apps) = .okFull [] (installedIDs apps) ∧
    (ComposeAppStoreInfoList (.ok c0) { authorType := some authorType } (.ok [])
        (.ok apps)).statusCode = 200 := by
  have hempty : ∀ cat : Catalog, FilterCatalogByAuthorType cat (strToLower authorType) = [] := by
    intro cat
    rw [FilterCatalogByAuthorType, if_pos h]
  refine ⟨hempty catalog, ?_, ?_⟩ <;>
    simp [ComposeAppStoreInfoList, filterPipeline, authorTypeStep, categoryStep,
      hempty, storeInfoListing, ListResponse.statusCode]

/-- C4 (witness). -/
theorem C4_unknown_author_type_witness :
    FilterCatalogByAuthorType [] (strToLower "Partner") = [] ∧
    ComposeAppStoreInfoList (.ok []) { authorType := some "Partner" } (.ok [])
        (.ok []) = .okFull [] (installedIDs []) ∧
    (ComposeAppStoreInfoList (.ok []) { authorType := some "Partner" } (.ok [])
        (.ok [])).statusCode = 200 :=
  C4_unknown_author_type [] [] "Partner" [] (by decide)

/-- C8: the category filter is the identity for the empty category
argument; for a non-empty argument it retains exactly the entries whose
store-info projection succeeds with a case-insensitively matching
category, so entries with a failing projection are dropped rather than
raising an error. -/
theorem C8_category_filter (catalog : Catalog) (category : String) :
    FilterCatalogByCategory catalog "" = catalog ∧
    (category ≠ "" →
      ∀ k app, ((k, app) ∈ FilterCatalogByCategory catalog category ↔
        ((k, app) ∈ catalog ∧ ∃ si, app.storeInfoTrue = .ok si ∧
          strToLower si.category = strToLower category))) := by
  constructor
  · simp [FilterCatalogByCategory]
  · intro hc k app
    rw [FilterCatalogByCategory, if_neg hc, List.mem_filter]
    constructor
    · rintro ⟨hmem, hpred⟩
      refine ⟨hmem, ?_⟩
      rcases hsi : app.storeInfoTrue with e | si
      · rw [hsi] at hpred; exact absurd hpred (by simp)
      · rw [hsi] at hpred
        exact ⟨si, rfl, by simpa using hpred⟩
    · rintro ⟨hmem, si, hsi, hmatch⟩
      refine ⟨hmem, ?_⟩
      rw [hsi]
      simpa using hmatch

/-- C8 (witness). -/
theorem C8_category_filter_witness :
    FilterCatalogByCategory [] "" = ([] : Catalog) ∧
    (("x", ({ storeInfoTrue := .ok { category := "Media" } } : ComposeApp)) ∈
        FilterCatalogByCategory
          [("x", ({ storeInfoTrue := .ok { category := "Media" } } : ComposeApp))]
          "media" ↔
      (("x", ({ storeInfoTrue := .ok { category := "Media" } } : ComposeApp)) ∈
          ([("x", ({ storeInfoTrue := .ok { category := "Media" } } : ComposeApp))] :
            Catalog) ∧
        ∃ si, (({ storeInfoTrue := .ok { category := "Media" } } : ComposeApp)).storeInfoTrue =
            .ok si ∧ strToLower si.category = strToLower "media")) :=
  ⟨(C8_category_filter [] "media").1,
    (C8_category_filter
      [("x", ({ storeInfoTrue := .ok { category := "Media" } } : ComposeApp))]
      "media").2 (by decide) "x" { storeInfoTrue := .ok { category := "Media" } }⟩

/-- C2 (counterexample): an entry whose store-info projection fails is NOT
excluded from the final store-info listing of the catalog query: with the
one-entry catalog `x ↦ failingApp` and no filters, the response list still
contains the key `"x"`, mapped to the zero-value store info. -/
theorem C2_counterexample :
    ComposeAppStoreInfoList (.ok [("x", failingApp)]) {} (.ok []) (.ok []) =
      .okFull [("x", ComposeAppStoreInfo.empty)] [] ∧
    ("x", ComposeAppStoreInfo.empty) ∈ [("x", ComposeAppStoreInfo.empty)] := by
  exact ⟨rfl, by decide⟩

/-- C2 (amended): per-entry projection failures never abort a query, and a
failing entry never affects the other entries; an entry whose projection
fails is dropped by the category filter and the installed
cross-referencer, while in the final store-info listing it is not dropped
but appears mapped to the zero-value store info. -/
theorem C2_projection_failures :
    (∀ (catalog : Catalog) (category k : String) (app : ComposeApp) (e : String),
      category ≠ "" → app.storeInfoTrue = .error e →
      FilterCatalogByCategory ((k, app) :: catalog) category =
        FilterCatalogByCategory catalog category) ∧
    (∀ (apps : List ComposeApp) (app : ComposeApp) (e : String),
      app.storeInfoFalse = .error e →
      installedIDs (app :: apps) = installedIDs apps) ∧
    (∀ (catalog : Catalog) (k : String) (app : ComposeApp) (e : String),
      app.storeInfoTrue = .error e →
      storeInfoListing ((k, app) :: catalog) =
        (k, ComposeAppStoreInfo.empty) :: storeInfoListing catalog) := by
  refine ⟨?_, ?_, ?_⟩
  · intro catalog category k app e hc he
    rw [FilterCatalogByCategory, if_neg hc, FilterCatalogByCategory, if_neg hc,
      List.filter_cons]
    simp [he]
  · intro apps app e he
    simp [installedIDs, he]
  · intro catalog k app e he
    simp [storeInfoListing, he]

/-- C2 (witness for the amended theorem). -/
theorem C2_projection_failures_witness :
    FilterCatalogByCategory [("x", failingApp)] "media" =
      FilterCatalogByCategory [] "media" ∧
    installedIDs [failingApp] = installedIDs [] ∧
    storeInfoListing [("x", failingApp)] =
      (("x", ComposeAppStoreInfo.empty)) :: storeInfoListing [] :=
  ⟨C2_projection_failures.1 [] "media" "x" failingApp "yaml: unmarshal error"
      (by decide) rfl,
    C2_projection_failures.2.1 [] failingApp "yaml: unmarshal error" rfl,
    C2_projection_failures.2.2 [] "x" failingApp "yaml: unmarshal error" rfl⟩

/-- C6: the recommended filter is consulted only when the recommend flag
is present and true (the pipeline's outcome then ignores the recommend
fetch entirely); when it applies and the fetch fails, the whole query
aborts with a server error carrying no catalog data; when the fetch
succeeds, exactly the entries whose store-app identifier is in the
membership list survive. -/
theorem C6_recommend_filter (c0 : Catalog) (params : ComposeAppStoreInfoListParams)
    (r₁ r₂ : Except String (List String)) (inst : Except String (List ComposeApp))
    (e : String) (ids : List String) :
    (params.recommend ≠ some true →
      filterPipeline c0 params r₁ =
        .ok (authorTypeStep (categoryStep c0 params) params) ∧
      filterPipeline c0 params r₁ = filterPipeline c0 params r₂) ∧
    (params.recommend = some true →
      ComposeAppStoreInfoList (.ok c0) params (.error e) inst = .internalError e ∧
      (ComposeAppStoreInfoList (.ok c0) params (.error e) inst).statusCode = 500) ∧
    (params.recommend = some true →
      filterPipeline c0 params (.ok ids) =
        .ok (FilterCatalogByAppStoreID (authorTypeStep (categoryStep c0 params) params) ids)) ∧
    (∀ (c : Catalog) (k : String) (app : ComposeApp),
      (k, app) ∈ FilterCatalogByAppStoreID c ids ↔ ((k, app) ∈ c ∧ k ∈ ids)) := by
  refine ⟨?_, ?_, ?_, ?_⟩
  · intro h
    simp only [filterPipeline, if_neg h]
    constructor <;> trivial
  · intro h
    simp only [ComposeAppStoreInfoList, filterPipeline, if_pos h]
    constructor <;> trivial
  · intro h
    simp only [filterPipeline, if_pos h]
  · intro c k app
    rw [FilterCatalogByAppStoreID, List.mem_filter]
    simp

/-- C6 (witness). -/
theorem C6_recommend_filter_witness :
    filterPipeline [] { recommend := some false } (.ok []) =
      .ok (authorTypeStep (categoryStep [] { recommend := some false })
        { recommend := some false }) ∧
    ComposeAppStoreInfoList (.ok []) { recommend := some true } (.error "fetch failed")
        (.ok []) = .internalError "fetch failed" ∧
    filterPipeline [] { recommend := some true } (.ok ["a"]) =
      .ok (FilterCatalogByAppStoreID (authorTypeStep (categoryStep []
        { recommend := some true }) { recommend := some true }) ["a"]) := by
  refine ⟨?_, ?_, ?_⟩
  · exact ((C6_recommend_filter [] { recommend := some false } (.ok []) (.ok [])
      (.ok []) "e" []).1 (by decide)).1
  · exact ((C6_recommend_filter [] { recommend := some true } (.ok []) (.ok [])
      (.ok []) "fetch failed" []).2.1 rfl).1
  · exact (C6_recommend_filter [] { recommend := some true } (.ok []) (.ok [])
      (.ok []) "e" ["a"]).2.2.1 rfl

/-- C10: when the catalog fetch and the filter pipeline succeed but the
installed-inventory fetch fails, the query still answers HTTP 200 with the
filtered store-info list, the fetch error's message, and no installed set. -/
theorem C10_installed_fetch_failure (c0 : Catalog)
    (params : ComposeAppStoreInfoListParams) (rec : Except String (List String))
    (filtered : Catalog) (e : String)
    (h : filterPipeline c0 params rec = .ok filtered) :
    ComposeAppStoreInfoList (.ok c0) params rec (.error e) =
      .okNoInstalled e (storeInfoListing filtered) ∧
    (ComposeAppStoreInfoList (.ok c0) params rec (.error e)).statusCode = 200 ∧
    (ComposeAppStoreInfoList (.ok c0) params rec (.error e)).installed = none := by
  rw [ComposeAppStoreInfoList, h]
  exact ⟨rfl, rfl, rfl⟩

/-- C10 (witness). -/
theorem C10_installed_fetch_failure_witness :
    ComposeAppStoreInfoList (.ok [("x", failingApp)]) {} (.ok []) (.error "db down") =
      .okNoInstalled "db down" (storeInfoListing [("x", failingApp)]) ∧
    (ComposeAppStoreInfoList (.ok [("x", failingApp)]) {} (.ok [])
      (.error "db down")).statusCode = 200 ∧
    (ComposeAppStoreInfoList (.ok [("x", failingApp)]) {} (.ok [])
      (.error "db down")).installed = none :=
  C10_installed_fetch_failure [("x", failingApp)] {} (.ok []) [("x", failingApp)]
    "db down" rfl

/-- C9: single compose-app retrieval returns the bare serialized document
when the structured (YAML) content type is requested, with no envelope and
no warning; for any other content type it returns a JSON envelope holding
the debug warning message, the store-info projection and the compose data. -/
theorem C9_representation_selector (app : ComposeApp) (accept body : String)
    (yamlMarshal : ComposeApp → Except String String)
    (si : Option ComposeAppStoreInfo) :
    (accept = MIMEApplicationYAML → yamlMarshal app = .ok body →
      ComposeAppRoute (.ok (some app)) accept yamlMarshal = .yamlBody body) ∧
    (accept ≠ MIMEApplicationYAML → app.storeInfoFalse = .ok si →
      ComposeAppRoute (.ok (some app)) accept yamlMarshal =
        .jsonEnvelope composeAppDebugMessage si app) := by
  constructor
  · intro ha hy
    rw [ComposeAppRoute, if_pos ha, hy]
  · intro ha hsi
    rw [ComposeAppRoute, if_neg ha, hsi]

/-- C9 (witness). -/
theorem C9_representation_selector_witness :
    ComposeAppRoute (.ok (some { name := "syncthing" })) MIMEApplicationYAML
      (fun _ => .ok "name: syncthing") = .yamlBody "name: syncthing" ∧
    ComposeAppRoute (.ok (some { name := "syncthing", storeInfoFalse := .ok none })) ""
      (fun _ => .ok "name: syncthing") =
      .jsonEnvelope composeAppDebugMessage none
        { name := "syncthing", storeInfoFalse := .ok none } :=
  ⟨(C9_representation_selector { name := "syncthing" } MIMEApplicationYAML
      "name: syncthing" (fun _ => .ok "name: syncthing") none).1 rfl rfl,
    (C9_representation_selector { name := "syncthing", storeInfoFalse := .ok none } ""
      "name: syncthing" (fun _ => .ok "name: syncthing") none).2 (by decide) rfl⟩

/- ## Category aggregator lemmas -/

lemma charListLe_cons_iff (x y : Char) (xs ys : List Char) :
    charListLe (x :: xs) (y :: ys) = true ↔
      (x.toNat < y.toNat ∨ (x.toNat = y.toNat ∧ charListLe xs ys = true)) := by
  rw [charListLe]
  rcases Nat.lt_trichotomy x.toNat y.toNat with h | h | h
  · simp [h]
  · simp [h]
  · simp [h, Nat.lt_asymm h, (Nat.ne_of_lt h).symm]

lemma charListLe_total (a b : List Char) :
    charListLe a b = true ∨ charListLe b a = true := by
  induction a generalizing b with
  | nil => exact .inl rfl
  | cons x xs ih =>
    cases b with
    | nil => exact .inr rfl
    | cons y ys =>
      rcases Nat.lt_trichotomy x.toNat y.toNat with h | h | h
      · exact .inl ((charListLe_cons_iff x y xs ys).mpr (.inl h))
      · rcases ih ys with hc | hc
        · exact .inl ((charListLe_cons_iff x y xs ys).mpr (.inr ⟨h, hc⟩))
        · exact .inr ((charListLe_cons_iff y x ys xs).mpr (.inr ⟨h.symm, hc⟩))
      · exact .inr ((charListLe_cons_iff y x ys xs).mpr (.inl h))

lemma charListLe_trans {a b c : List Char} (h₁ : charListLe a b = true)
    (h₂ : charListLe b c = true) : charListLe a c = true := by
  induction a generalizing b c with
  | nil => rfl
  | cons x xs ih =>
    cases b with
    | nil => simp [charListLe] at h₁
    | cons y ys =>
      cases c with
      | nil => simp [charListLe] at h₂
      | cons z zs =>
        rw [charListLe_cons_iff] at h₁ h₂ ⊢
        rcases h₁ with h₁ | ⟨h₁e, h₁r⟩
        · rcases h₂ with h₂ | ⟨h₂e, h₂r⟩
          · exact .inl (Nat.lt_trans h₁ h₂)
          · exact .inl (h₂e ▸ h₁)
        · rcases h₂ with h₂ | ⟨h₂e, h₂r⟩
          · exact .inl (h₁e.symm ▸ h₂)
          · exact .inr ⟨h₁e.trans h₂e, ih h₁r h₂r⟩

lemma strLeb_of_not_strLeb {a b : String} (h : ¬ strLeb a b = true) :
    strLeb b a = true := by
  rcases charListLe_total a.data b.data with hc | hc
  · exact absurd hc h
  · exact hc

lemma nameLe_trans {a b c : CategoryInfo} (h₁ : nameLe a b) (h₂ : nameLe b c) :
    nameLe a c :=
  charListLe_trans h₁ h₂

lemma insertCategory_perm (c : CategoryInfo) (l : List CategoryInfo) :
    (insertCategory c l).Perm (c :: l) := by
  induction l with
  | nil => exact .refl _
  | cons d rest ih =>
    rw [insertCategory]
    by_cases h : strLeb c.name d.name = true
    · rw [if_pos h]
    · rw [if_neg h]
      exact .trans (.cons d ih) (.swap c d rest)

lemma sortCategories_perm (l : List CategoryInfo) : (sortCategories l).Perm l := by
  induction l with
  | nil => exact .refl _
  | cons c rest ih =>
    exact .trans (insertCategory_perm c (sortCategories rest)) (.cons c ih)

lemma insertCategory_sorted (c : CategoryInfo) (l : List CategoryInfo)
    (h : l.Pairwise nameLe) : (insertCategory c l).Pairwise nameLe := by
  induction l with
  | nil => simp [insertCategory, List.pairwise_cons]
  | cons d rest ih =>
    rw [insertCategory]
    rcases List.pairwise_cons.mp h with ⟨hd, hrest⟩
    by_cases hc : strLeb c.name d.name = true
    · rw [if_pos hc]
      refine List.pairwise_cons.mpr ⟨?_, h⟩
      intro b hb
      rcases List.mem_cons.mp hb with hb | hb
      · rw [hb]; exact hc
      · exact nameLe_trans hc (hd b hb)
    · rw [if_neg hc]
      refine List.pairwise_cons.mpr ⟨?_, ih hrest⟩
      intro b hb
      rcases List.mem_cons.mp ((insertCategory_perm c rest).mem_iff.mp hb) with hb | hb
      · rw [hb]; exact strLeb_of_not_strLeb hc
      · exact hd b hb

lemma sortCategories_sorted (l : List CategoryInfo) :
    (sortCategories l).Pairwise nameLe := by
  induction l with
  | nil => exact .nil
  | cons c rest ih => exact insertCategory_sorted c (sortCategories rest) ih

lemma totalCountOf_perm {l l' : List CategoryInfo} (h : l.Perm l') :
    totalCountOf l = totalCountOf l' := by
  induction h with
  | nil => rfl
  | cons c _ ih => rw [totalCountOf, totalCountOf, ih]
  | swap c d rest =>
    rw [totalCountOf, totalCountOf, totalCountOf, totalCountOf]
    ring
  | trans _ _ ih₁ ih₂ => exact ih₁.trans ih₂

lemma assignIDs_length (start : Nat) (l : List CategoryInfo) :
    (assignIDs start l).length = l.length := by
  induction l generalizing start with
  | nil => rfl
  | cons c rest ih => rw [assignIDs, List.length_cons, List.length_cons, ih]

lemma assignIDs_get (start : Nat) (l : List CategoryInfo) (i : Nat)
    (h : i < (assignIDs start l).length) :
    ((assignIDs start l).get ⟨i, h⟩).id = some (start + i) := by
  induction l generalizing start i with
  | nil => exact absurd h (by simp [assignIDs])
  | cons c rest ih =>
    cases i with
    | zero => rfl
    | succ j =>
      have h' : j < (assignIDs (start + 1) rest).length := by
        have h2 := h
        rw [assignIDs_length] at h2 ⊢
        rw [List.length_cons] at h2
        omega
      calc ((assignIDs start (c :: rest)).get ⟨j + 1, h⟩).id
          = ((assignIDs (start + 1) rest).get ⟨j, h'⟩).id := rfl
        _ = some (start + 1 + j) := ih (start + 1) j h'
        _ = some (start + (j + 1)) := by rw [Nat.add_assoc, Nat.add_comm 1 j]

lemma assignIDs_map_stripID (start : Nat) (l : List CategoryInfo) :
    (assignIDs start l).map stripID = l.map stripID := by
  induction l generalizing start with
  | nil => rfl
  | cons c rest ih =>
    rw [assignIDs, List.map_cons, List.map_cons, ih]
    rfl

lemma assignIDs_mem_name {b : CategoryInfo} (start : Nat) (l : List CategoryInfo)
    (hb : b ∈ assignIDs start l) : ∃ b₀ ∈ l, b.name = b₀.name := by
  induction l generalizing start with
  | nil => exact absurd hb (by simp [assignIDs])
  | cons c rest ih =>
    rw [assignIDs] at hb
    rcases List.mem_cons.mp hb with hb | hb
    · exact ⟨c, List.mem_cons_self c rest, by rw [hb]⟩
    · rcases ih (start + 1) hb with ⟨b₀, hb₀, hname⟩
      exact ⟨b₀, List.mem_cons_of_mem c hb₀, hname⟩

lemma assignIDs_pairwise (start : Nat) (l : List CategoryInfo)
    (h : l.Pairwise nameLe) : (assignIDs start l).Pairwise nameLe := by
  induction l generalizing start with
  | nil => exact .nil
  | cons c rest ih =>
    rcases List.pairwise_cons.mp h with ⟨hd, hrest⟩
    rw [assignIDs]
    refine List.pairwise_cons.mpr ⟨?_, ih (start + 1) hrest⟩
    intro b hb
    rcases assignIDs_mem_name (start + 1) rest hb with ⟨b₀, hb₀, hname⟩
    show strLeb _ b.name = true
    rw [hname]
    exact hd b₀ hb₀

/-- C5: the category aggregation sorts the fetched categories by name
ascending, sums their counts (an absent count contributing zero),
prepends the synthetic "All" category with icon token "apps", description
"All apps" and the summed count, and then assigns every element its
zero-based position as its display ordinal, "All" receiving ordinal 0; on
the two-category example `{A ↦ 2, B ↦ 3}` it produces exactly
`[All/5/0, A/2/1, B/3/2]`. -/
theorem C5_category_aggregation (categoryValues : List CategoryInfo) :
    (CategoryList categoryValues).length = categoryValues.length + 1 ∧
    (CategoryList categoryValues).head? =
      some { allCategory (totalCountOf categoryValues) with id := some 0 } ∧
    (∀ i (h : i < (CategoryList categoryValues).length),
      ((CategoryList categoryValues).get ⟨i, h⟩).id = some i) ∧
    ((CategoryList categoryValues).tail).Pairwise nameLe ∧
    (((CategoryList categoryValues).tail).map stripID).Perm
      (categoryValues.map stripID) ∧
    CategoryList [{ name := "B", count := some 3 }, { name := "A", count := some 2 }] =
      [{ allCategory 5 with id := some 0 },
        { name := "A", count := some 2, id := some 1 },
        { name := "B", count := some 3, id := some 2 }] := by
  have hsum : totalCountOf (sortCategories categoryValues) = totalCountOf categoryValues :=
    totalCountOf_perm (sortCategories_perm categoryValues)
  have hdef : CategoryList categoryValues =
      assignIDs 0 (allCategory (totalCountOf (sortCategories categoryValues)) ::
        sortCategories categoryValues) := rfl
  have htail : (CategoryList categoryValues).tail =
      assignIDs 1 (sortCategories categoryValues) := rfl
  refine ⟨?_, ?_, ?_, ?_, ?_, ?_⟩
  · rw [hdef, assignIDs_length, List.length_cons,
      (sortCategories_perm categoryValues).length_eq]
  · rw [← hsum]
    rfl
  · intro i h
    have hg := assignIDs_get 0
      (allCategory (totalCountOf (sortCategories categoryValues)) ::
        sortCategories categoryValues) i h
    simpa using hg
  · rw [htail]
    exact assignIDs_pairwise 1 _ (sortCategories_sorted categoryValues)
  · rw [htail, assignIDs_map_stripID]
    exact (sortCategories_perm categoryValues).map stripID
  · rfl

/-- C5 (witness): the positional-ordinal clause evaluated on the
two-category example at position 2. -/
theorem C5_category_aggregation_witness :
    ((CategoryList [{ name := "B", count := some 3 }, { name := "A", count := some 2 }]).get
      ⟨2, by decide⟩).id = some 2 :=
  (C5_category_aggregation
    [{ name := "B", count := some 3 }, { name := "A", count := some 2 }]).2.2.1 2 (by decide)

end AppStore
